import Mathlib

/-!
Verification of the frame-scheduling utility and settings sanitizers of the
bedolaga-cabinet dashboard.

The definitions below are a shallow embedding of:

* `src/hooks/useAnimationLoop.ts` — the shared animation loop hook
  (FPS throttling, suspension on page hide / Telegram deactivation,
  idempotent start/stop, cleanup on unmount);
* `src/components/ui/backgrounds/types.ts` — `clampNumber` and
  `sanitizeColor`, the numeric and color sanitizers used by the
  background renderers.

Machine timestamps are modelled as rationals (JS numbers in the ranges used
here behave like exact rationals for the operations `+ - * / %` involved).
-/

namespace Cabinet

/-- JS binary `%` (remainder) on numbers, for a nonzero divisor:
`a % b = a - b * truncate (a / b)`, where `truncate` rounds toward zero
(floor for a nonnegative quotient, ceiling for a negative one). -/
def jsMod (a b : ℚ) : ℚ :=
  a - b * (if 0 ≤ a / b then (⌊a / b⌋ : ℚ) else (⌈a / b⌉ : ℚ))

/-- `TARGET_FPS = isMobile ? 30 : 60` from `useAnimationLoop.ts`. -/
def TARGET_FPS (isMobile : Bool) : ℚ := if isMobile then 30 else 60

/-- `FRAME_INTERVAL = 1000 / TARGET_FPS` from `useAnimationLoop.ts`. -/
def FRAME_INTERVAL (isMobile : Bool) : ℚ := 1000 / TARGET_FPS isMobile

/-- One callback invocation recorded by the loop: the tick `time` and
`delta` passed to the callback, and the `marker` (the value stored in
`lastTime` immediately after this accepted tick). -/
structure Invocation where
  time : ℚ
  delta : ℚ
  marker : ℚ
  deriving DecidableEq, Repr

/-- The body of `loop` in `useAnimationLoop.ts` for a single platform tick at
time `t`, given the current `lastTime`:

```
const delta = time - lastTime;
if (delta >= FRAME_INTERVAL) {
  lastTime = time - (delta % FRAME_INTERVAL);
  callbackRef.current(time, delta);
}
```

Returns the new `lastTime` and the callback invocation, if any. -/
def loopStep (interval : ℚ) (lastTime t : ℚ) : ℚ × Option Invocation :=
  let delta := t - lastTime
  if interval ≤ delta then
    let m := t - jsMod delta interval
    (m, some ⟨t, delta, m⟩)
  else
    (lastTime, none)

/-- Iterate `loopStep` over a list of platform tick timestamps, collecting
the callback invocations in order. -/
def runLoop (interval : ℚ) : ℚ → List ℚ → List Invocation
  | _, [] => []
  | lastTime, t :: ts =>
    match loopStep interval lastTime t with
    | (m, some inv) => inv :: runLoop interval m ts
    | (m, none) => runLoop interval m ts

/-! ### The full loop-handle state machine

State of one `useAnimationLoop` effect instance, as closed over by the
effect body: `animId` abstracts the numeric handle to whether a platform
`requestAnimationFrame` registration is currently held (`animId !== 0`);
`outstanding` counts the platform registrations actually outstanding (to
verify, rather than assume, that there is at most one); `visListener` and
`tgListener` record whether the `visibilitychange` listener and the
Telegram `activated`/`deactivated` handlers are currently registered. -/
structure LoopState where
  animId : Bool
  lastTime : ℚ
  docHidden : Bool
  tgInactive : Bool
  outstanding : ℕ
  visListener : Bool
  tgListener : Bool
  deriving DecidableEq, Repr

/-- `const isPaused = () => docHidden || tgInactive;` -/
def isPaused (s : LoopState) : Bool := s.docHidden || s.tgInactive

/-- `start`: if a registration is already held, return (no-op); otherwise
set `lastTime = performance.now()` and register the frame callback. -/
def start (now : ℚ) (s : LoopState) : LoopState :=
  if s.animId then s
  else { s with lastTime := now, animId := true, outstanding := s.outstanding + 1 }

/-- `stop`: if a registration is held, cancel it and clear `animId`;
otherwise do nothing. -/
def stop (s : LoopState) : LoopState :=
  if s.animId then { s with animId := false, outstanding := s.outstanding - 1 }
  else s

/-- Effect setup: local state is initialised (`animId = 0`, `lastTime = 0`,
`docHidden = document.hidden`, `tgInactive = false`), the `visibilitychange`
listener is added, the Telegram handlers are added when `window.Telegram?.WebApp`
exists (`tgPresent`), and the loop is started only if not paused. -/
def init (tgPresent docHiddenNow : Bool) (now : ℚ) : LoopState :=
  let s : LoopState :=
    { animId := false, lastTime := 0, docHidden := docHiddenNow,
      tgInactive := false, outstanding := 0,
      visListener := true, tgListener := tgPresent }
  if isPaused s then s else start now s

/-- Effect cleanup (returned destructor): `stop()`, remove the
`visibilitychange` listener, and detach the Telegram handlers. -/
def cleanup (s : LoopState) : LoopState :=
  { stop s with visListener := false, tgListener := false }

/-- External events a loop handle can observe: a platform frame tick,
a `visibilitychange` event (the handler re-reads `document.hidden`, and
`start` re-reads `performance.now()`, hence the `now` argument), the
Telegram `activated` / `deactivated` events, and disposal of the effect. -/
inductive Event where
  | tick (t : ℚ)
  | visibilitychange (hidden : Bool) (now : ℚ)
  | tgActivated (now : ℚ)
  | tgDeactivated
  | dispose
  deriving DecidableEq, Repr

/-- One step of the handle. A `tick` fires only when a registration is
outstanding (`animId` held): a cancelled registration's callback never
runs. Listener events fire only while the corresponding listener is
registered. Returns the new state and the callback invocation, if any. -/
def stepFull (interval : ℚ) : Event → LoopState → LoopState × Option Invocation
  | .tick t, s =>
    if s.animId then
      let r := loopStep interval s.lastTime t
      ({ s with lastTime := r.1 }, r.2)
    else (s, none)
  | .visibilitychange hidden now, s =>
    if s.visListener then
      let s' := { s with docHidden := hidden }
      if isPaused s' then (stop s', none) else (start now s', none)
    else (s, none)
  | .tgActivated now, s =>
    if s.tgListener then
      let s' := { s with tgInactive := false }
      if isPaused s' then (s', none) else (start now s', none)
    else (s, none)
  | .tgDeactivated, s =>
    if s.tgListener then (stop { s with tgInactive := true }, none)
    else (s, none)
  | .dispose, s => (cleanup s, none)

/-- Run a sequence of events from a state. -/
def runFull (interval : ℚ) (s : LoopState) : List Event → LoopState
  | [] => s
  | e :: es => runFull interval (stepFull interval e s).1 es

/-- The callback invocations emitted while running a sequence of events. -/
def callsFull (interval : ℚ) (s : LoopState) : List Event → List Invocation
  | [] => []
  | e :: es =>
    let r := stepFull interval e s
    r.2.toList ++ callsFull interval r.1 es

/-- A state is reachable when some construction followed by some event
sequence produces it. -/
def Reachable (interval : ℚ) (tgPresent : Bool) (s : LoopState) : Prop :=
  ∃ d now es, runFull interval (init tgPresent d now) es = s

/-- The state invariant maintained by every reachable state:
the registration count matches the held handle (hence is at most one), the
loop never holds a registration while paused, the Telegram listener exists
only when the Telegram API does, and without that API `tgInactive` stays
false and no Telegram subscription exists. -/
def Inv (tgPresent : Bool) (s : LoopState) : Prop :=
  s.outstanding = (if s.animId then 1 else 0) ∧
  (s.animId = true → isPaused s = false) ∧
  (tgPresent = false → s.tgListener = false ∧ s.tgInactive = false)

/-! ### Settings sanitizers (`src/components/ui/backgrounds/types.ts`)

JS runtime values, as far as the sanitizers discriminate them: a finite
number, `NaN`, `±Infinity`, a string, a boolean, `undefined`, `null`. -/
inductive JSValue where
  | num (q : ℚ)
  | nan
  | inf (pos : Bool)
  | str (s : String)
  | jsBool (b : Bool)
  | undef
  | null
  deriving DecidableEq, Repr

/-- `typeof value === 'number' && Number.isFinite(value)`. -/
def isFiniteNumber : JSValue → Bool
  | .num _ => true
  | _ => false

/-- `typeof value === 'number' && Number.isFinite(value) ? value : fallback`:
the value itself when it is a finite number, the fallback otherwise. -/
def toFiniteNumber (value : JSValue) (fallback : ℚ) : ℚ :=
  match value with
  | .num q => q
  | _ => fallback

/-- `clampNumber` from `types.ts`:
```
const n = typeof value === 'number' && Number.isFinite(value) ? value : fallback;
return Math.max(min, Math.min(max, n));
```
-/
def clampNumber (value : JSValue) (min max fallback : ℚ) : ℚ :=
  Max.max min (Min.min max (toFiniteNumber value fallback))

/-- The ECMAScript whitespace class: the characters matched by `\s` in a
JS regular expression, which is also the set removed by `String.prototype.trim`
(WhiteSpace ∪ LineTerminator). By code point: space, tab, LF, CR, VT, FF,
NBSP, U+1680, U+2000–U+200A, LS, PS, U+202F, U+205F, U+3000, BOM. -/
def isJsWhitespace (c : Char) : Bool :=
  c.toNat = 32 || c.toNat = 9 || c.toNat = 10 || c.toNat = 13 ||
  c.toNat = 11 || c.toNat = 12 || c.toNat = 0xa0 || c.toNat = 0x1680 ||
  (0x2000 ≤ c.toNat && c.toNat ≤ 0x200a) ||
  c.toNat = 0x2028 || c.toNat = 0x2029 || c.toNat = 0x202f ||
  c.toNat = 0x205f || c.toNat = 0x3000 || c.toNat = 0xfeff

/-- `String.prototype.trim`: remove leading and trailing JS whitespace. -/
def jsTrim (s : String) : String :=
  ⟨((s.data.dropWhile isJsWhitespace).reverse.dropWhile isJsWhitespace).reverse⟩

/-- `String.prototype.toLowerCase`, restricted to ASCII case mapping (the
only case relevant here: it is compared against ASCII keywords after a
letters-only match). -/
def jsToLower (s : String) : String := ⟨s.data.map Char.toLower⟩

/-- A character matched by `[0-9a-fA-F]` (code points 48–57, 97–102, 65–70). -/
def isHexDigit (c : Char) : Bool :=
  (48 ≤ c.toNat && c.toNat ≤ 57) || (97 ≤ c.toNat && c.toNat ≤ 102) ||
  (65 ≤ c.toNat && c.toNat ≤ 70)

/-- A character matched by `[a-zA-Z]` (code points 97–122, 65–90). -/
def isAsciiLetter (c : Char) : Bool :=
  (97 ≤ c.toNat && c.toNat ≤ 122) || (65 ≤ c.toNat && c.toNat ≤ 90)

/-- A character matched by the rgb/hsl body class `[0-9,.\s/%]`: a digit,
comma (44), dot (46), slash (47), percent (37), or JS whitespace. -/
def isFuncBodyChar (c : Char) : Bool :=
  (48 ≤ c.toNat && c.toNat ≤ 57) || c.toNat = 44 || c.toNat = 46 ||
  c.toNat = 47 || c.toNat = 37 || isJsWhitespace c

/-- `/^#[0-9a-fA-F]{3,8}$/`. -/
def matchesHex (s : String) : Bool :=
  match s.data with
  | '#' :: rest =>
    rest.all isHexDigit && decide (3 ≤ rest.length) && decide (rest.length ≤ 8)
  | _ => false

/-- After the opening parenthesis and the first body character: one or more
further body characters followed by the closing parenthesis at the end. -/
def restClose : List Char → Bool
  | [] => false
  | [c] => c = ')'
  | c :: rest => isFuncBodyChar c && restClose rest

/-- `\([0-9,.\s/%]+\)$`: an opening parenthesis already consumed, at least
one body character, then the closing parenthesis ending the string. -/
def bodyPlusClose : List Char → Bool
  | c :: rest => isFuncBodyChar c && restClose rest
  | [] => false

/-- `a?\(...\)$`: an optional `a`, then the parenthesised body. -/
def afterName : List Char → Bool
  | 'a' :: '(' :: rest => bodyPlusClose rest
  | '(' :: rest => bodyPlusClose rest
  | _ => false

/-- `/^(rgb|hsl)a?\([0-9,.\s/%]+\)$/`. -/
def matchesFunc (s : String) : Bool :=
  match s.data with
  | 'r' :: 'g' :: 'b' :: rest => afterName rest
  | 'h' :: 's' :: 'l' :: rest => afterName rest
  | _ => false

/-- `/^[a-zA-Z]{3,30}$/`. -/
def matchesName (s : String) : Bool :=
  s.data.all isAsciiLetter && decide (3 ≤ s.data.length) &&
    decide (s.data.length ≤ 30)

/-- `CSS_WIDE_KEYWORDS = new Set(['inherit', 'initial', 'unset', 'revert', 'revert-layer'])`. -/
def CSS_WIDE_KEYWORDS : List String :=
  ["inherit", "initial", "unset", "revert", "revert-layer"]

/-- `sanitizeColor` from `types.ts`:
```
if (typeof value !== 'string') return fallback;
const trimmed = value.trim();
if (/^#[0-9a-fA-F]{3,8}$/.test(trimmed)) return trimmed;
if (/^(rgb|hsl)a?\([0-9,.\s/%]+\)$/.test(trimmed)) return trimmed;
if (/^[a-zA-Z]{3,30}$/.test(trimmed) && !CSS_WIDE_KEYWORDS.has(trimmed.toLowerCase()))
  return trimmed;
return fallback;
```
-/
def sanitizeColor (value : JSValue) (fallback : String) : String :=
  match value with
  | .str s =>
    let trimmed := jsTrim s
    if matchesHex trimmed then trimmed
    else if matchesFunc trimmed then trimmed
    else if matchesName trimmed && !(CSS_WIDE_KEYWORDS.contains (jsToLower trimmed))
      then trimmed
    else fallback
  | _ => fallback

/-- The characters that can occur in a non-fallback `sanitizeColor` result:
hex digits, ASCII letters, `#` (35), the function-body class, and the two
parentheses (40, 41). -/
def isSafeColorChar (c : Char) : Bool :=
  isHexDigit c || isAsciiLetter c || c.toNat = 35 || isFuncBodyChar c ||
  c.toNat = 40 || c.toNat = 41

/-! ### Arithmetic facts about `jsMod` and the throttle step -/

theorem jsMod_eq_sub_floor {a b : ℚ} (hb : 0 < b) (ha : 0 ≤ a) :
    jsMod a b = a - b * ⌊a / b⌋ := by
  unfold jsMod
  rw [if_pos (div_nonneg ha hb.le)]

theorem jsMod_nonneg {a b : ℚ} (hb : 0 < b) (ha : 0 ≤ a) : 0 ≤ jsMod a b := by
  rw [jsMod_eq_sub_floor hb ha]
  have hfl : b * ⌊a / b⌋ ≤ b * (a / b) :=
    mul_le_mul_of_nonneg_left (Int.floor_le _) hb.le
  have : b * (a / b) = a := by field_simp
  linarith

theorem jsMod_lt {a b : ℚ} (hb : 0 < b) (ha : 0 ≤ a) : jsMod a b < b := by
  rw [jsMod_eq_sub_floor hb ha]
  have hfl : a / b - 1 < ⌊a / b⌋ := Int.sub_one_lt_floor _
  have hb' : b ≠ 0 := hb.ne'
  have : b * (a / b - 1) < b * ⌊a / b⌋ := by
    exact mul_lt_mul_of_pos_left hfl hb
  have hab : b * (a / b) = a := by field_simp
  nlinarith

/-- On an accepted tick the stored marker advances by exactly
`⌊delta / interval⌋` intervals. -/
theorem sub_jsMod_eq {delta interval : ℚ} (hpos : 0 < interval)
    (hacc : interval ≤ delta) :
    delta - jsMod delta interval = interval * ⌊delta / interval⌋ := by
  have hd : 0 ≤ delta := hpos.le.trans hacc
  rw [jsMod_eq_sub_floor hpos hd]
  ring

theorem one_le_floor_div {delta interval : ℚ} (hpos : 0 < interval)
    (hacc : interval ≤ delta) : 1 ≤ ⌊delta / interval⌋ := by
  have : (1 : ℚ) ≤ delta / interval := (one_le_div hpos).mpr hacc
  exact_mod_cast Int.le_floor.mpr (by exact_mod_cast this)

theorem runLoop_cons_accept {interval lastTime t : ℚ} (ts : List ℚ)
    (h : interval ≤ t - lastTime) :
    runLoop interval lastTime (t :: ts) =
      ⟨t, t - lastTime, t - jsMod (t - lastTime) interval⟩ ::
        runLoop interval (t - jsMod (t - lastTime) interval) ts := by
  simp only [runLoop, loopStep, if_pos h]

theorem runLoop_cons_reject {interval lastTime t : ℚ} (ts : List ℚ)
    (h : ¬ interval ≤ t - lastTime) :
    runLoop interval lastTime (t :: ts) = runLoop interval lastTime ts := by
  simp only [runLoop, loopStep, if_neg h]

/-- Facts about the first invocation produced from marker `lastTime`:
its marker is at least one interval ahead of `lastTime`, and its tick time
lies in `[marker, marker + interval)`. -/
theorem runLoop_head_facts {interval : ℚ} (hpos : 0 < interval) :
    ∀ (ts : List ℚ) (lastTime : ℚ) (inv : Invocation),
      (runLoop interval lastTime ts).head? = some inv →
      lastTime + interval ≤ inv.marker ∧ inv.marker ≤ inv.time ∧
        inv.time < inv.marker + interval := by
  intro ts
  induction ts with
  | nil => intro lastTime inv h; simp [runLoop] at h
  | cons t ts ih =>
    intro lastTime inv h
    by_cases hacc : interval ≤ t - lastTime
    · rw [runLoop_cons_accept ts hacc] at h
      simp only [List.head?_cons, Option.some.injEq] at h
      subst h
      have hd : 0 ≤ t - lastTime := hpos.le.trans hacc
      have h1 := sub_jsMod_eq hpos hacc
      have h2 := one_le_floor_div hpos hacc
      have h3 := jsMod_nonneg hpos hd
      have h4 := jsMod_lt hpos hd
      refine ⟨?_, by simp only; linarith, by simp only; linarith⟩
      have : interval * 1 ≤ interval * ⌊(t - lastTime) / interval⌋ := by
        apply mul_le_mul_of_nonneg_left _ hpos.le
        exact_mod_cast h2
      simp only
      nlinarith
    · rw [runLoop_cons_reject ts hacc] at h
      exact ih lastTime inv h

/-- Consecutive accepted invocations: markers are at least one interval
apart and tick times strictly increase. -/
theorem runLoop_chain {interval : ℚ} (hpos : 0 < interval) :
    ∀ (ts : List ℚ) (lastTime : ℚ),
      List.Chain' (fun a b => a.marker + interval ≤ b.marker ∧ a.time < b.time)
        (runLoop interval lastTime ts) := by
  intro ts
  induction ts with
  | nil => intro lastTime; simp [runLoop]
  | cons t ts ih =>
    intro lastTime
    by_cases hacc : interval ≤ t - lastTime
    · rw [runLoop_cons_accept ts hacc]
      refine List.chain'_cons'.mpr ⟨?_, ih _⟩
      intro b hb
      have hfacts := runLoop_head_facts hpos ts _ b hb
      have hd : 0 ≤ t - lastTime := hpos.le.trans hacc
      have h4 := jsMod_lt hpos hd
      obtain ⟨hb1, hb2, _⟩ := hfacts
      constructor
      · simpa using hb1
      · simp only
        linarith
    · rw [runLoop_cons_reject ts hacc]
      exact ih lastTime

/-! ### The state invariant of the loop handle -/

theorem start_animId (now : ℚ) (s : LoopState) : (start now s).animId = true := by
  unfold start; split
  · assumption
  · rfl

theorem start_docHidden (now : ℚ) (s : LoopState) :
    (start now s).docHidden = s.docHidden := by
  unfold start; split <;> rfl

theorem start_tgInactive (now : ℚ) (s : LoopState) :
    (start now s).tgInactive = s.tgInactive := by
  unfold start; split <;> rfl

theorem start_visListener (now : ℚ) (s : LoopState) :
    (start now s).visListener = s.visListener := by
  unfold start; split <;> rfl

theorem start_tgListener (now : ℚ) (s : LoopState) :
    (start now s).tgListener = s.tgListener := by
  unfold start; split <;> rfl

theorem start_outstanding (now : ℚ) (s : LoopState)
    (h : s.outstanding = if s.animId then 1 else 0) :
    (start now s).outstanding = 1 := by
  unfold start; split <;> simp_all

theorem stop_animId (s : LoopState) : (stop s).animId = false := by
  unfold stop; split
  · rfl
  · simp_all

theorem stop_docHidden (s : LoopState) : (stop s).docHidden = s.docHidden := by
  unfold stop; split <;> rfl

theorem stop_tgInactive (s : LoopState) : (stop s).tgInactive = s.tgInactive := by
  unfold stop; split <;> rfl

theorem stop_visListener (s : LoopState) : (stop s).visListener = s.visListener := by
  unfold stop; split <;> rfl

theorem stop_tgListener (s : LoopState) : (stop s).tgListener = s.tgListener := by
  unfold stop; split <;> rfl

theorem stop_outstanding (s : LoopState)
    (h : s.outstanding = if s.animId then 1 else 0) :
    (stop s).outstanding = 0 := by
  unfold stop; split <;> simp_all

theorem inv_init (tgPresent d : Bool) (now : ℚ) :
    Inv tgPresent (init tgPresent d now) := by
  cases d <;> cases tgPresent <;>
    simp [init, Inv, isPaused, start]

theorem inv_step (interval : ℚ) (tgPresent : Bool) (e : Event) (s : LoopState)
    (h : Inv tgPresent s) : Inv tgPresent (stepFull interval e s).1 := by
  obtain ⟨a, lt, dh, tg, o, vl, tl⟩ := s
  obtain ⟨h1, h2, h3⟩ := h
  simp only at h1 h2 h3
  cases e <;> cases tgPresent <;> cases a <;> cases dh <;> cases tg <;>
      cases vl <;> cases tl <;>
    simp_all [stepFull, Inv, isPaused, start, stop, cleanup] <;>
    (try (split <;> simp_all))

theorem runFull_inv (interval : ℚ) (tgPresent : Bool) (es : List Event)
    (s : LoopState) (h : Inv tgPresent s) :
    Inv tgPresent (runFull interval s es) := by
  induction es generalizing s with
  | nil => exact h
  | cons e es ih => exact ih _ (inv_step interval tgPresent e s h)

theorem reachable_inv {interval : ℚ} {tgPresent : Bool} {s : LoopState}
    (h : Reachable interval tgPresent s) : Inv tgPresent s := by
  obtain ⟨d, now, es, rfl⟩ := h
  exact runFull_inv interval tgPresent es _ (inv_init tgPresent d now)

/-! ### Claim theorems for the throttle (C1, C4, C5) -/

theorem FRAME_INTERVAL_mobile : FRAME_INTERVAL true = 100/3 := by
  norm_num [FRAME_INTERVAL, TARGET_FPS]

theorem runLoop_eval_50_67 :
    runLoop (100/3) 0 [50, 67] = [⟨50, 50, 100/3⟩, ⟨67, 101/3, 200/3⟩] := by
  rw [runLoop_cons_accept _ (by norm_num : (100/3 : ℚ) ≤ 50 - 0)]
  have e1 : (50 : ℚ) - jsMod (50 - 0) (100/3) = 100/3 := by
    rw [jsMod, if_pos (by norm_num : (0 : ℚ) ≤ (50 - 0) / (100/3))]
    norm_num [Int.floor_eq_iff]
  rw [e1]
  rw [runLoop_cons_accept _ (by norm_num : (100/3 : ℚ) ≤ 67 - 100/3)]
  have e2 : (67 : ℚ) - jsMod (67 - 100/3) (100/3) = 200/3 := by
    rw [jsMod, if_pos (by norm_num : (0 : ℚ) ≤ (67 - 100/3) / (100/3))]
    norm_num [Int.floor_eq_iff]
  rw [e2]
  simp only [runLoop]
  norm_num

theorem runLoop_eval_50 :
    runLoop (100/3) 0 [50] = [⟨50, 50, 100/3⟩] := by
  rw [runLoop_cons_accept _ (by norm_num : (100/3 : ℚ) ≤ 50 - 0)]
  have e1 : (50 : ℚ) - jsMod (50 - 0) (100/3) = 100/3 := by
    rw [jsMod, if_pos (by norm_num : (0 : ℚ) ≤ (50 - 0) / (100/3))]
    norm_num [Int.floor_eq_iff]
  rw [e1]
  simp only [runLoop]
  norm_num

/-- C1 (counterexample): with the mobile 30 FPS ceiling
(`FRAME_INTERVAL = 1000/30 = 100/3`), the monotonically increasing tick
sequence `[50, 67]` starting from marker `0` produces two consecutive
accepted invocations whose tick timestamps differ by `17 < 100/3`
milliseconds: the claim that consecutive accepted tick timestamps always
differ by at least `1000/F` is false. -/
theorem C1_counterexample :
    List.Chain' (· < ·) [(50 : ℚ), 67] ∧
    runLoop (FRAME_INTERVAL true) 0 [50, 67] =
      [⟨50, 50, 100/3⟩, ⟨67, 101/3, 200/3⟩] ∧
    (67 : ℚ) - 50 < FRAME_INTERVAL true := by
  refine ⟨?_, ?_, ?_⟩
  · norm_num [List.chain'_cons]
  · rw [FRAME_INTERVAL_mobile, runLoop_eval_50_67]
  · rw [FRAME_INTERVAL_mobile]; norm_num

/-- C1 (amended): for every positive interval `1000/F` and any tick
sequence, consecutive accepted invocations have last-accepted markers at
least one interval apart, and their tick timestamps strictly increase (so
the callback rate is bounded in marker time, though two accepted tick
timestamps may be closer than one interval). -/
theorem C1_amended_marker_spacing (interval : ℚ) (hpos : 0 < interval)
    (lastTime : ℚ) (ts : List ℚ) :
    List.Chain' (fun a b => a.marker + interval ≤ b.marker ∧ a.time < b.time)
      (runLoop interval lastTime ts) :=
  runLoop_chain hpos ts lastTime

/-- C1 (witness for the amended theorem), at the 30 FPS interval and the
tick sequence of the counterexample. -/
theorem C1_amended_witness :
    (0 : ℚ) < FRAME_INTERVAL true ∧
    List.Chain'
      (fun a b => a.marker + FRAME_INTERVAL true ≤ b.marker ∧ a.time < b.time)
      (runLoop (FRAME_INTERVAL true) 0 [50, 67]) :=
  ⟨by norm_num [FRAME_INTERVAL, TARGET_FPS],
   C1_amended_marker_spacing (FRAME_INTERVAL true)
     (by norm_num [FRAME_INTERVAL, TARGET_FPS]) 0 [50, 67]⟩

/-- C4: on an accepted tick (`interval ≤ t - lastTime`) the new marker is
`t - ((t - lastTime) % interval)`, which advances the previous marker by an
exact positive integer multiple of the interval. -/
theorem C4_marker_exact_multiple (interval lastTime t : ℚ) (hpos : 0 < interval)
    (hacc : interval ≤ t - lastTime) :
    (loopStep interval lastTime t).1 = t - jsMod (t - lastTime) interval ∧
    ∃ k : ℤ, 1 ≤ k ∧
      (loopStep interval lastTime t).1 = lastTime + (k : ℚ) * interval := by
  constructor
  · simp only [loopStep, if_pos hacc]
  · refine ⟨⌊(t - lastTime) / interval⌋, one_le_floor_div hpos hacc, ?_⟩
    have h1 := sub_jsMod_eq hpos hacc
    simp only [loopStep, if_pos hacc]
    linarith

/-- C4 (witness): at `interval = 100/3`, `lastTime = 0`, `t = 50`. -/
theorem C4_witness :
    (0 : ℚ) < 100/3 ∧ (100 : ℚ)/3 ≤ 50 - 0 ∧
    ((loopStep (100/3) 0 50).1 = 50 - jsMod (50 - 0) (100/3) ∧
     ∃ k : ℤ, 1 ≤ k ∧ (loopStep (100/3) 0 50).1 = 0 + (k : ℚ) * (100/3)) :=
  ⟨by norm_num, by norm_num,
   C4_marker_exact_multiple (100/3) 0 50 (by norm_num) (by norm_num)⟩

/-- C5: every callback invocation receives `delta ≥ interval > 0`; in
particular `delta` is never zero or negative, and at the 30 FPS ceiling
(`interval = 1000/30`) it is always above 33 ms. -/
theorem C5_delta_at_least_interval (interval : ℚ) (hpos : 0 < interval)
    (lastTime : ℚ) (ts : List ℚ) :
    ∀ inv ∈ runLoop interval lastTime ts,
      interval ≤ inv.delta ∧ 0 < inv.delta ∧
        (interval = FRAME_INTERVAL true → 33 < inv.delta) := by
  induction ts generalizing lastTime with
  | nil => simp [runLoop]
  | cons t ts ih =>
    intro inv hinv
    by_cases hacc : interval ≤ t - lastTime
    · rw [runLoop_cons_accept ts hacc] at hinv
      rcases List.mem_cons.mp hinv with h | h
      · subst h
        refine ⟨hacc, lt_of_lt_of_le hpos hacc, ?_⟩
        intro hI
        rw [hI] at hacc
        have h33 : (33 : ℚ) < FRAME_INTERVAL true := by
          norm_num [FRAME_INTERVAL, TARGET_FPS]
        simp only
        linarith
      · exact ih _ inv h
    · rw [runLoop_cons_reject ts hacc] at hinv
      exact ih _ inv hinv

/-- C5 (witness): at the 30 FPS interval, marker `0`, ticks `[50]`, the
single invocation has `delta = 50`. -/
theorem C5_witness :
    (0 : ℚ) < FRAME_INTERVAL true ∧
    (⟨50, 50, 100/3⟩ : Invocation) ∈ runLoop (FRAME_INTERVAL true) 0 [50] ∧
    (FRAME_INTERVAL true ≤ (⟨50, 50, 100/3⟩ : Invocation).delta ∧
     0 < (⟨50, 50, 100/3⟩ : Invocation).delta ∧
     (FRAME_INTERVAL true = FRAME_INTERVAL true →
       33 < (⟨50, 50, 100/3⟩ : Invocation).delta)) :=
  ⟨by norm_num [FRAME_INTERVAL, TARGET_FPS],
   by rw [FRAME_INTERVAL_mobile, runLoop_eval_50]; exact List.mem_singleton.mpr rfl,
   C5_delta_at_least_interval (FRAME_INTERVAL true)
     (by norm_num [FRAME_INTERVAL, TARGET_FPS]) 0 [50]
     ⟨50, 50, 100/3⟩
     (by rw [FRAME_INTERVAL_mobile, runLoop_eval_50]
         exact List.mem_singleton.mpr rfl)⟩

/-! ### Claim theorems for the loop-handle state machine (C2, C3, C6, C7, C8) -/

theorem marker_50 : (50 : ℚ) - jsMod (50 - 0) (100/3) = 100/3 := by
  rw [jsMod, if_pos (by norm_num : (0 : ℚ) ≤ (50 - 0) / (100/3))]
  norm_num [Int.floor_eq_iff]

theorem loopStep_eval_50 :
    loopStep (100/3) 0 50 = (100/3, some ⟨50, 50, 100/3⟩) := by
  simp only [loopStep]
  rw [if_pos (by norm_num : (100/3 : ℚ) ≤ 50 - 0)]
  rw [marker_50]
  norm_num

theorem init_active_eval :
    init false false 0 = ⟨true, 0, false, false, 1, true, false⟩ := by
  simp [init, isPaused, start]

/-- Only a platform tick, received while a registration is held, can emit a
callback invocation. -/
theorem emit_requires_tick {interval : ℚ} {e : Event} {s : LoopState}
    {inv : Invocation} (hc : (stepFull interval e s).2 = some inv) :
    (∃ t, e = .tick t) ∧ s.animId = true := by
  cases e with
  | tick t =>
    by_cases ha : s.animId = true
    · exact ⟨⟨t, rfl⟩, ha⟩
    · simp only [stepFull] at hc
      rw [if_neg ha] at hc
      simp at hc
  | visibilitychange hidden now =>
    simp only [stepFull] at hc
    split at hc
    · split at hc <;> simp at hc
    · simp at hc
  | tgActivated now =>
    simp only [stepFull] at hc
    split at hc
    · split at hc <;> simp at hc
    · simp at hc
  | tgDeactivated =>
    simp only [stepFull] at hc
    split at hc <;> simp at hc
  | dispose => simp [stepFull] at hc

/-- C2: a loop handle never invokes its callback while the composite
activity signal (`document visible AND host active`) is false: whenever a
step from a reachable state emits a callback invocation, the handle was
unpaused before the step and is still unpaused after it. -/
theorem C2_never_fires_while_paused (interval : ℚ) (tgPresent : Bool)
    (s : LoopState) (h : Reachable interval tgPresent s) (e : Event)
    (inv : Invocation) (hc : (stepFull interval e s).2 = some inv) :
    isPaused s = false ∧ isPaused (stepFull interval e s).1 = false := by
  obtain ⟨⟨t, rfl⟩, ha⟩ := emit_requires_tick hc
  have hp : isPaused s = false := (reachable_inv h).2.1 ha
  refine ⟨hp, ?_⟩
  simp only [stepFull, if_pos ha]
  simpa [isPaused] using hp

/-- C2 (witness): the handle constructed visible with no Telegram API,
stepped by a tick at `t = 50` with the 30 FPS interval. -/
theorem C2_witness :
    Reachable (100/3) false (init false false 0) ∧
    (stepFull (100/3) (.tick 50) (init false false 0)).2 = some ⟨50, 50, 100/3⟩ ∧
    (isPaused (init false false 0) = false ∧
     isPaused (stepFull (100/3) (.tick 50) (init false false 0)).1 = false) := by
  have hreach : Reachable (100/3) false (init false false 0) := ⟨false, 0, [], rfl⟩
  have hstep : (stepFull (100/3) (.tick 50) (init false false 0)).2 =
      some ⟨50, 50, 100/3⟩ := by
    rw [init_active_eval]
    simp only [stepFull, if_true]
    rw [loopStep_eval_50]
  exact ⟨hreach, hstep,
    C2_never_fires_while_paused (100/3) false (init false false 0) hreach
      (.tick 50) ⟨50, 50, 100/3⟩ hstep⟩

/-- C3: in every reachable state at most one platform registration is
outstanding; `start` while running and `stop` while stopped are no-ops. -/
theorem C3_at_most_one_registration (interval : ℚ) (tgPresent : Bool)
    (s : LoopState) (h : Reachable interval tgPresent s) :
    s.outstanding ≤ 1 ∧
    (∀ now, s.animId = true → start now s = s) ∧
    (s.animId = false → stop s = s) := by
  have hI := reachable_inv h
  refine ⟨?_, ?_, ?_⟩
  · rw [hI.1]; split <;> omega
  · intro now ha
    unfold start
    rw [if_pos ha]
  · intro ha
    unfold stop
    rw [if_neg (by simp [ha])]

/-- C3 (witness): at the freshly constructed running handle. -/
theorem C3_witness :
    Reachable (100/3) false (init false false 0) ∧
    ((init false false 0).outstanding ≤ 1 ∧
     (∀ now, (init false false 0).animId = true →
       start now (init false false 0) = init false false 0) ∧
     ((init false false 0).animId = false →
       stop (init false false 0) = init false false 0)) :=
  ⟨⟨false, 0, [], rfl⟩,
   C3_at_most_one_registration (100/3) false (init false false 0)
     ⟨false, 0, [], rfl⟩⟩

theorem cleanup_idem (s : LoopState) : cleanup (cleanup s) = cleanup s := by
  obtain ⟨a, lt, dh, tg, o, vl, tl⟩ := s
  cases a <;> simp [cleanup, stop]

theorem stepFull_cleanup (interval : ℚ) (e : Event) (s : LoopState) :
    stepFull interval e (cleanup s) = (cleanup s, none) := by
  obtain ⟨a, lt, dh, tg, o, vl, tl⟩ := s
  cases e <;> cases a <;> simp [stepFull, cleanup, stop]

/-- C6: after disposal no platform registration is outstanding and no
listener remains registered; cleanup is idempotent (safe to run again),
and the disposed handle is stuck: every further event leaves it unchanged
and emits nothing. -/
theorem C6_cleanup_releases_everything (interval : ℚ) (tgPresent : Bool)
    (s : LoopState) (h : Reachable interval tgPresent s) :
    (cleanup s).outstanding = 0 ∧ (cleanup s).animId = false ∧
    (cleanup s).visListener = false ∧ (cleanup s).tgListener = false ∧
    cleanup (cleanup s) = cleanup s ∧
    (∀ e, stepFull interval e (cleanup s) = (cleanup s, none)) := by
  have hI := reachable_inv h
  refine ⟨?_, ?_, rfl, rfl, cleanup_idem s, fun e => stepFull_cleanup interval e s⟩
  · show (stop s).outstanding = 0
    exact stop_outstanding s hI.1
  · show (stop s).animId = false
    exact stop_animId s

/-- C6 (witness): disposing the freshly constructed running handle. -/
theorem C6_witness :
    Reachable (100/3) false (init false false 0) ∧
    ((cleanup (init false false 0)).outstanding = 0 ∧
     (cleanup (init false false 0)).animId = false ∧
     (cleanup (init false false 0)).visListener = false ∧
     (cleanup (init false false 0)).tgListener = false ∧
     cleanup (cleanup (init false false 0)) = cleanup (init false false 0) ∧
     (∀ e, stepFull (100/3) e (cleanup (init false false 0)) =
       (cleanup (init false false 0), none))) :=
  ⟨⟨false, 0, [], rfl⟩,
   C6_cleanup_releases_everything (100/3) false (init false false 0)
     ⟨false, 0, [], rfl⟩⟩

/-- While the document stays hidden and the handle holds no registration,
no event other than a `visibilitychange` to visible can start it or make
it emit a callback. -/
theorem stays_stopped (interval : ℚ) (es : List Event) :
    ∀ s : LoopState, s.docHidden = true → s.animId = false →
      (∀ t, Event.visibilitychange false t ∉ es) →
      callsFull interval s es = [] := by
  induction es with
  | nil => intro s _ _ _; rfl
  | cons e es ih =>
    intro s hdh ha hno
    have hno' : ∀ t, Event.visibilitychange false t ∉ es := fun t ht =>
      hno t (List.mem_cons_of_mem _ ht)
    have hstep : (stepFull interval e s).2 = none ∧
        (stepFull interval e s).1.docHidden = true ∧
        (stepFull interval e s).1.animId = false := by
      cases e with
      | tick t => simp [stepFull, ha, hdh]
      | visibilitychange hidden now =>
        cases hidden with
        | false => exact absurd (List.mem_cons_self _ _) (hno now)
        | true =>
          obtain ⟨a, lt, dh, tg, o, vl, tl⟩ := s
          simp only at hdh ha
          subst hdh; subst ha
          cases vl <;> simp [stepFull, isPaused, stop]
      | tgActivated now =>
        obtain ⟨a, lt, dh, tg, o, vl, tl⟩ := s
        simp only at hdh ha
        subst hdh; subst ha
        cases tl <;> simp [stepFull, isPaused, stop, start]
      | tgDeactivated =>
        obtain ⟨a, lt, dh, tg, o, vl, tl⟩ := s
        simp only at hdh ha
        subst hdh; subst ha
        cases tl <;> simp [stepFull, isPaused, stop]
      | dispose => simp [stepFull, cleanup, stop, ha, hdh]
    simp only [callsFull, hstep.1, Option.toList_none, List.nil_append]
    exact ih _ hstep.2.1 hstep.2.2 hno'

/-- C7: at construction a registration is created iff the activity signal
is active at that moment (the document is visible; the Telegram flag is
initialised active); constructed hidden, the handle is stopped and emits no
callback until a `visibilitychange` to visible arrives. -/
theorem C7_initial_state (tgPresent d : Bool) (now interval : ℚ) :
    ((init tgPresent d now).animId = !d) ∧
    ((init tgPresent d now).outstanding = if d then 0 else 1) ∧
    (isPaused (init tgPresent d now) = d) ∧
    (d = true → ∀ es : List Event,
      (∀ t, Event.visibilitychange false t ∉ es) →
      callsFull interval (init tgPresent d now) es = []) := by
  refine ⟨?_, ?_, ?_, ?_⟩
  · cases d <;> simp [init, isPaused, start]
  · cases d <;> simp [init, isPaused, start]
  · cases d <;> simp [init, isPaused, start]
  · intro hd es hno
    subst hd
    refine stays_stopped interval es _ ?_ ?_ hno <;>
      simp [init, isPaused, start]

/-- C7 (witness): constructed hidden, driven by a tick and a Telegram
deactivation: no callback fires and the handle is stopped. -/
theorem C7_witness :
    ((init false true 0).animId = !true) ∧
    ((init false true 0).outstanding = if true then 0 else 1) ∧
    (isPaused (init false true 0) = true) ∧
    callsFull (100/3) (init false true 0) [.tick 50, .tgDeactivated] = [] := by
  obtain ⟨w1, w2, w3, w4⟩ := C7_initial_state false true 0 (100/3)
  refine ⟨w1, w2, w3, w4 rfl _ ?_⟩
  intro t
  simp

/-- C8: the composite should-run signal is `visible AND active`; when the
Telegram API is absent no subscription to it is made, the inactive flag
never becomes true, and the composite signal is driven solely by document
visibility. -/
theorem C8_composite_signal (interval : ℚ) (s : LoopState)
    (h : Reachable interval false s) :
    s.tgListener = false ∧ s.tgInactive = false ∧
    isPaused s = s.docHidden ∧
    (∀ s' : LoopState, (!(isPaused s')) = (!s'.docHidden && !s'.tgInactive)) ∧
    (∀ d : Bool, ∀ now : ℚ, (init false d now).tgListener = false) := by
  have hI := reachable_inv h
  obtain ⟨hl, hi⟩ := hI.2.2 rfl
  refine ⟨hl, hi, by simp [isPaused, hi], ?_, ?_⟩
  · intro s'
    simp [isPaused]
  · intro d now
    cases d <;> simp [init, isPaused, start]

/-- C8 (witness): at the handle constructed hidden with no Telegram API. -/
theorem C8_witness :
    Reachable (100/3) false (init false true 0) ∧
    ((init false true 0).tgListener = false ∧
     (init false true 0).tgInactive = false ∧
     isPaused (init false true 0) = (init false true 0).docHidden ∧
     (∀ s' : LoopState, (!(isPaused s')) = (!s'.docHidden && !s'.tgInactive)) ∧
     (∀ d : Bool, ∀ now : ℚ, (init false d now).tgListener = false)) :=
  ⟨⟨true, 0, [], rfl⟩,
   C8_composite_signal (100/3) (init false true 0) ⟨true, 0, [], rfl⟩⟩

/-! ### Claim theorems for the sanitizers (C9, C10) -/

/-- C9: for every runtime value (numbers, `NaN`, infinities, strings,
booleans, `undefined`, `null`) and bounds `min ≤ max`, `clampNumber`
returns a number in `[min, max]`, and every value that is not a finite
number is replaced by the fallback before clamping. -/
theorem C9_clamp_within_bounds (value : JSValue) (min max fallback : ℚ)
    (h : min ≤ max) :
    min ≤ clampNumber value min max fallback ∧
    clampNumber value min max fallback ≤ max ∧
    (isFiniteNumber value = false →
      clampNumber value min max fallback =
        clampNumber (.num fallback) min max fallback) := by
  simp only [clampNumber]
  refine ⟨le_max_left _ _, max_le h (min_le_left _ _), ?_⟩
  intro hv
  cases value <;> simp_all [isFiniteNumber, toFiniteNumber]

/-- C9 (witness): `NaN` clamped into `[0, 10]` with fallback `5`. -/
theorem C9_witness :
    (0 : ℚ) ≤ 10 ∧
    ((0 : ℚ) ≤ clampNumber JSValue.nan 0 10 5 ∧
     clampNumber JSValue.nan 0 10 5 ≤ 10 ∧
     (isFiniteNumber JSValue.nan = false →
       clampNumber JSValue.nan 0 10 5 = clampNumber (JSValue.num 5) 0 10 5)) :=
  ⟨by norm_num, C9_clamp_within_bounds JSValue.nan 0 10 5 (by norm_num)⟩

theorem restClose_chars : ∀ l : List Char, restClose l = true →
    ∀ c ∈ l, isFuncBodyChar c = true ∨ c = ')' := by
  intro l
  induction l with
  | nil => intro h; simp [restClose] at h
  | cons c rest ih =>
    intro h c' hc'
    cases rest with
    | nil =>
      simp only [restClose, decide_eq_true_eq] at h
      rcases List.mem_cons.mp hc' with rfl | hmem
      · right; exact h
      · simp at hmem
    | cons c2 rest2 =>
      simp only [restClose, Bool.and_eq_true] at h
      rcases List.mem_cons.mp hc' with rfl | hmem
      · left; exact h.1
      · exact ih h.2 c' hmem

theorem bodyPlusClose_chars (l : List Char) (h : bodyPlusClose l = true) :
    ∀ c ∈ l, isFuncBodyChar c = true ∨ c = ')' := by
  cases l with
  | nil => simp [bodyPlusClose] at h
  | cons c rest =>
    simp only [bodyPlusClose, Bool.and_eq_true] at h
    intro c' hc'
    rcases List.mem_cons.mp hc' with rfl | hmem
    · left; exact h.1
    · exact restClose_chars rest h.2 c' hmem

theorem afterName_chars (l : List Char) (h : afterName l = true) :
    ∀ c ∈ l, isSafeColorChar c = true := by
  unfold afterName at h
  split at h
  · rename_i rest
    intro c hc
    rcases List.mem_cons.mp hc with rfl | hc2
    · decide
    rcases List.mem_cons.mp hc2 with rfl | hc3
    · decide
    rcases bodyPlusClose_chars rest h c hc3 with hb | rfl
    · simp [isSafeColorChar, hb]
    · decide
  · rename_i rest
    intro c hc
    rcases List.mem_cons.mp hc with rfl | hc2
    · decide
    rcases bodyPlusClose_chars rest h c hc2 with hb | rfl
    · simp [isSafeColorChar, hb]
    · decide
  · simp at h

theorem matchesFunc_chars (r : String) (h : matchesFunc r = true) :
    ∀ c ∈ r.data, isSafeColorChar c = true := by
  unfold matchesFunc at h
  split at h
  · rename_i rest heq
    intro c hc
    rw [heq] at hc
    rcases List.mem_cons.mp hc with rfl | hc2
    · decide
    rcases List.mem_cons.mp hc2 with rfl | hc3
    · decide
    rcases List.mem_cons.mp hc3 with rfl | hc4
    · decide
    · exact afterName_chars rest h c hc4
  · rename_i rest heq
    intro c hc
    rw [heq] at hc
    rcases List.mem_cons.mp hc with rfl | hc2
    · decide
    rcases List.mem_cons.mp hc2 with rfl | hc3
    · decide
    rcases List.mem_cons.mp hc3 with rfl | hc4
    · decide
    · exact afterName_chars rest h c hc4
  · simp at h

theorem matchesHex_chars (r : String) (h : matchesHex r = true) :
    ∀ c ∈ r.data, isSafeColorChar c = true := by
  unfold matchesHex at h
  split at h
  · rename_i rest heq
    simp only [Bool.and_eq_true] at h
    intro c hc
    rw [heq] at hc
    rcases List.mem_cons.mp hc with rfl | hmem
    · decide
    · have hd := List.all_eq_true.mp h.1.1 c hmem
      simp only [isSafeColorChar, Bool.or_eq_true]
      tauto
  · simp at h

theorem matchesName_chars (r : String) (h : matchesName r = true) :
    ∀ c ∈ r.data, isSafeColorChar c = true := by
  simp only [matchesName, Bool.and_eq_true] at h
  intro c hc
  have hl := List.all_eq_true.mp h.1.1 c hc
  simp only [isSafeColorChar, Bool.or_eq_true]
  tauto

theorem isSafeColorChar_not_dangerous (c : Char)
    (h : isSafeColorChar c = true) :
    c.toNat ≠ 59 ∧ c.toNat ≠ 123 ∧ c.toNat ≠ 125 := by
  simp only [isSafeColorChar, isHexDigit, isAsciiLetter, isFuncBodyChar,
    isJsWhitespace, Bool.or_eq_true, Bool.and_eq_true, decide_eq_true_eq] at h
  omega

/-- C10: `sanitizeColor` returns either the fallback or the trimmed input,
and a trimmed input is only returned when it matches the hex shape, the
rgb/hsl functional shape, or the alphabetic-name shape excluding CSS-wide
keywords; in every non-fallback case each character of the result is from
the safe set, and in particular is never a semicolon (59) or a brace
(123, 125). -/
theorem C10_sanitize_color_safe (value : JSValue) (fallback : String) :
    sanitizeColor value fallback = fallback ∨
    (∃ s, value = .str s ∧ sanitizeColor value fallback = jsTrim s ∧
      (matchesHex (jsTrim s) = true ∨ matchesFunc (jsTrim s) = true ∨
        (matchesName (jsTrim s) = true ∧
         jsToLower (jsTrim s) ∉ CSS_WIDE_KEYWORDS)) ∧
      (∀ c ∈ (sanitizeColor value fallback).data,
        isSafeColorChar c = true ∧ c.toNat ≠ 59 ∧ c.toNat ≠ 123 ∧
          c.toNat ≠ 125)) := by
  cases value with
  | str s =>
    by_cases h1 : matchesHex (jsTrim s) = true
    · have hres : sanitizeColor (.str s) fallback = jsTrim s := by
        simp [sanitizeColor, h1]
      right
      refine ⟨s, rfl, hres, Or.inl h1, ?_⟩
      rw [hres]
      intro c hc
      have hsafe := matchesHex_chars _ h1 c hc
      exact ⟨hsafe, isSafeColorChar_not_dangerous c hsafe⟩
    · by_cases h2 : matchesFunc (jsTrim s) = true
      · have hres : sanitizeColor (.str s) fallback = jsTrim s := by
          simp [sanitizeColor, h1, h2]
        right
        refine ⟨s, rfl, hres, Or.inr (Or.inl h2), ?_⟩
        rw [hres]
        intro c hc
        have hsafe := matchesFunc_chars _ h2 c hc
        exact ⟨hsafe, isSafeColorChar_not_dangerous c hsafe⟩
      · by_cases h3 : (matchesName (jsTrim s) &&
            !(CSS_WIDE_KEYWORDS.contains (jsToLower (jsTrim s)))) = true
        · have h3' := h3
          simp only [Bool.and_eq_true] at h3'
          obtain ⟨hn, hk⟩ := h3'
          have hmem : jsToLower (jsTrim s) ∉ CSS_WIDE_KEYWORDS := by
            simpa using hk
          have hres : sanitizeColor (.str s) fallback = jsTrim s := by
            simp [sanitizeColor, h1, h2, hn, hmem]
          right
          refine ⟨s, rfl, hres, Or.inr (Or.inr ⟨hn, hmem⟩), ?_⟩
          rw [hres]
          intro c hc
          have hsafe := matchesName_chars _ hn c hc
          exact ⟨hsafe, isSafeColorChar_not_dangerous c hsafe⟩
        · left
          have hcase : matchesName (jsTrim s) = false ∨
              jsToLower (jsTrim s) ∈ CSS_WIDE_KEYWORDS := by
            by_cases hn : matchesName (jsTrim s) = true
            · by_cases hk : jsToLower (jsTrim s) ∈ CSS_WIDE_KEYWORDS
              · exact Or.inr hk
              · refine absurd ?_ h3
                simp [hn, hk]
            · exact Or.inl (Bool.eq_false_iff.mpr hn)
          rcases hcase with hn | hk
          · simp [sanitizeColor, h1, h2, hn]
          · simp [sanitizeColor, h1, h2, hk]
  | num q => exact Or.inl rfl
  | nan => exact Or.inl rfl
  | inf pos => exact Or.inl rfl
  | jsBool b => exact Or.inl rfl
  | undef => exact Or.inl rfl
  | null => exact Or.inl rfl

end Cabinet
